import Mathlib

/-!
Verification of the rra repository core: the turret hit-chance calculator
(src/calculator.js) and the combat-log parsing and aggregation pipeline
(src/logParser.js).

Numeric model: JavaScript numbers are modelled over the exact extended reals
`EReal` (the spec's semantics is exact-real: "hitChance = 0.5^(tracking+range)
exactly").  Every `Infinity` the source produces is `⊤`; on real-valued inputs
none of the embedded functions ever produces a JavaScript `NaN`, because every
division in the source is guarded (distance ≤ 0, trackingSpeed ≤ 0, ... return
`Infinity` before dividing), so `EReal` is adequate.

Parser model: each regular expression of logParser.js is embedded as an
executable matcher on `List Char` implementing the JavaScript `String.match`
semantics for that concrete pattern: leftmost starting position, alternatives
tried left to right, lazy `.*?` expanded shortest-first, and greedy
`[^>]+`-style classes which — being always followed by a character outside the
class — deterministically take the maximal run.
-/

namespace Rra

/-! ## calculator.js -/

/-- The constant `SIGNATURE_RESOLUTION = 40000` (meters) of calculator.js. -/
def SIGNATURE_RESOLUTION : ℝ := 40000

/-- Input record of `calculateHitChance` (all JavaScript numbers, taken real). -/
structure HitParams where
  transversal : ℝ
  distance : ℝ
  trackingSpeed : ℝ
  signatureRadius : ℝ
  optimalRange : ℝ
  falloff : ℝ

/-- Input record of `calculateMaxTransversal`. -/
structure InverseParams where
  targetHitChance : ℝ
  distance : ℝ
  trackingSpeed : ℝ
  signatureRadius : ℝ
  optimalRange : ℝ
  falloff : ℝ

/-- Result record of `calculateHitChance`. -/
structure HitResult where
  hitChance : EReal
  hitChancePercent : EReal
  angularVelocity : EReal
  angularVelocityMrad : EReal
  trackingComponent : EReal
  rangeComponent : EReal
  isInOptimal : Prop
  isInFalloff : Prop
  expectedDamageModifier : EReal

/-- calculator.js `calculateAngularVelocity`:
`if (distance <= 0) return Infinity; return transversal / distance;`. -/
noncomputable def calculateAngularVelocity (transversal distance : ℝ) : EReal :=
  if distance ≤ 0 then ⊤ else ((transversal / distance : ℝ) : EReal)

/-- calculator.js `calculateTrackingComponent`:
`if (trackingSpeed <= 0 || signatureRadius <= 0) return Infinity;
 const ratio = (angularVelocity * SIGNATURE_RESOLUTION) / (trackingSpeed * signatureRadius);
 return ratio * ratio;`. -/
noncomputable def calculateTrackingComponent (angularVelocity : EReal)
    (trackingSpeed signatureRadius : ℝ) : EReal :=
  if trackingSpeed ≤ 0 ∨ signatureRadius ≤ 0 then ⊤
  else
    let q : EReal :=
      angularVelocity * ((SIGNATURE_RESOLUTION : ℝ) : EReal) /
        (((trackingSpeed * signatureRadius : ℝ)) : EReal)
    q * q

/-- calculator.js `calculateRangeComponent`:
`if (falloff <= 0) return distance > optimalRange ? Infinity : 0;
 const excess = Math.max(0, distance - optimalRange);
 const ratio = excess / falloff; return ratio * ratio;`. -/
noncomputable def calculateRangeComponent (distance optimalRange falloff : ℝ) : EReal :=
  if falloff ≤ 0 then (if optimalRange < distance then ⊤ else 0)
  else
    let q : ℝ := max 0 (distance - optimalRange) / falloff
    ((q * q : ℝ) : EReal)

/-- JavaScript `Math.pow(0.5, e)` on an extended-real exponent:
`0.5 ** Infinity = 0`, `0.5 ** -Infinity = Infinity`, real exponents exact. -/
noncomputable def powBaseHalf (e : EReal) : EReal :=
  if e = ⊤ then 0 else if e = ⊥ then ⊤ else (((0.5 : ℝ) ^ e.toReal : ℝ) : EReal)

/-- calculator.js `calculateHitChance`. -/
noncomputable def calculateHitChance (p : HitParams) : HitResult :=
  let angularVelocity := calculateAngularVelocity p.transversal p.distance
  let trackingComponent :=
    calculateTrackingComponent angularVelocity p.trackingSpeed p.signatureRadius
  let rangeComponent := calculateRangeComponent p.distance p.optimalRange p.falloff
  let exponent := trackingComponent + rangeComponent
  let hitChance := powBaseHalf exponent
  let expectedDamageModifier := hitChance * (((0.97 * 0.5 + 0.03 * 3 : ℝ)) : EReal)
  { hitChance := min 1 (max 0 hitChance)
    hitChancePercent := min 100 (max 0 (hitChance * ((100 : ℝ) : EReal)))
    angularVelocity := angularVelocity
    angularVelocityMrad := angularVelocity * ((1000 : ℝ) : EReal)
    trackingComponent := trackingComponent
    rangeComponent := rangeComponent
    isInOptimal := p.distance ≤ p.optimalRange
    isInFalloff := p.distance ≤ p.optimalRange + p.falloff
    expectedDamageModifier := expectedDamageModifier }

/-- calculator.js `calculateMaxTransversal`:
`if (targetHitChance <= 0 || targetHitChance > 1) return 0;
 const rangeComponent = calculateRangeComponent(distance, optimalRange, falloff);
 const totalExponent = Math.log(targetHitChance) / Math.log(0.5);
 const trackingExponent = totalExponent - rangeComponent;
 if (trackingExponent <= 0) return Infinity;
 const trackingRatio = Math.sqrt(trackingExponent);
 const angularVelocity = (trackingRatio * trackingSpeed * signatureRadius) / SIGNATURE_RESOLUTION;
 return angularVelocity * distance;`. -/
noncomputable def calculateMaxTransversal (p : InverseParams) : EReal :=
  if p.targetHitChance ≤ 0 ∨ 1 < p.targetHitChance then 0
  else
    let rangeComponent := calculateRangeComponent p.distance p.optimalRange p.falloff
    let totalExponent : EReal :=
      ((Real.log p.targetHitChance / Real.log 0.5 : ℝ) : EReal)
    let trackingExponent := totalExponent - rangeComponent
    if trackingExponent ≤ 0 then ⊤
    else
      ((Real.sqrt trackingExponent.toReal * p.trackingSpeed * p.signatureRadius /
          SIGNATURE_RESOLUTION * p.distance : ℝ) : EReal)

/-! ## logParser.js — character classes

JavaScript regex classes for patterns without the `u` flag: `\d` and `\w` are
ASCII, `\s` is the ECMAScript WhiteSpace ∪ LineTerminator set, `.` matches
everything except the four LineTerminator code points.  Case-insensitive (`i`)
matching without `u` canonicalises through ASCII case only, which is exactly
what `Char.toLower` (ASCII-only in Lean core) implements. -/

/-- ECMAScript `\s` (WhiteSpace and LineTerminator code points). -/
def jsSpace (c : Char) : Bool :=
  let n := c.toNat
  n == 32 || n == 9 || n == 10 || n == 11 || n == 12 || n == 13 ||
  n == 0xA0 || n == 0x1680 || (decide (0x2000 ≤ n) && decide (n ≤ 0x200A)) ||
  n == 0x2028 || n == 0x2029 || n == 0x202F || n == 0x205F ||
  n == 0x3000 || n == 0xFEFF

/-- ECMAScript LineTerminator (what `.` does not match). -/
def jsLineTerm (c : Char) : Bool :=
  let n := c.toNat
  n == 10 || n == 13 || n == 0x2028 || n == 0x2029

/-- ECMAScript `\w` = `[A-Za-z0-9_]`. -/
def jsWordChar (c : Char) : Bool :=
  c.isAlpha || c.isDigit || c == '_'

/-- The class `[\d.:\s]` of `LOG_LINE_REGEX`. -/
def tsClassChar (c : Char) : Bool :=
  c.isDigit || c == '.' || c == ':' || jsSpace c

/-- Case-insensitive character comparison of the `i` flag (ASCII folding,
which is what non-`u` JavaScript regexes use on ASCII pattern literals). -/
def ciChar (c p : Char) : Bool :=
  c.toLower == p.toLower

/-- Consume the literal `pat` case-insensitively; return the remainder. -/
def litCI : List Char → List Char → Option (List Char)
  | [], s => some s
  | _ :: _, [] => none
  | p :: ps, c :: cs => if ciChar c p then litCI ps cs else none

/-- Consume `\s+` when followed by something outside `\s` (all uses in the
source patterns are followed by a non-space literal, so the greedy run is
forced to be maximal); fails when no whitespace is present. -/
def needWs (s : List Char) : Option (List Char) :=
  if (s.takeWhile jsSpace).length = 0 then none else some (s.dropWhile jsSpace)

/-- Consume exactly `n` digits (`\d{n}`), returning the digit run. -/
def digitsExact : ℕ → List Char → Option (List Char × List Char)
  | 0, s => some ([], s)
  | _ + 1, [] => none
  | n + 1, c :: r =>
    if c.isDigit then (digitsExact n r).map (fun pr => (c :: pr.1, pr.2)) else none

/-- Require the next character to be `c`. -/
def expectCh (c : Char) : List Char → Option (List Char)
  | [] => none
  | a :: r => if a = c then some r else none

/-- The position loop of JavaScript `String.prototype.match` with a non-global
regex: try the pattern at every start position, leftmost first. -/
def scanWith {α : Type} (f : List Char → Option α) : List Char → Option α
  | [] => f []
  | s@(_ :: r) =>
    match f s with
    | some v => some v
    | none => scanWith f r

/-! ## logParser.js — the individual regexes -/

/-- `LOG_LINE_REGEX = /\[\s*[\d.:\s]+\]\s*\((\w+)\)\s*(.*)/` tried at one
position.  Since `\s ⊆ [\d.:\s]` and `]` is outside the class, the group
`\s*[\d.:\s]+\]` matches exactly a nonempty maximal `[\d.:\s]`-run followed by
`]`; the other greedy runs are each followed by a character outside their
class, so they are maximal as well, and `(.*)` takes everything up to the
first LineTerminator.  Returns (channel-type capture, content capture). -/
def logLineMatchAt (s : List Char) : Option (List Char × List Char) :=
  match s with
  | [] => none
  | c :: r =>
    if c = '[' then
      let run := r.takeWhile tsClassChar
      let r1 := r.dropWhile tsClassChar
      if run.length = 0 then none
      else
        match r1 with
        | [] => none
        | c1 :: r2 =>
          if c1 = ']' then
            match r2.dropWhile jsSpace with
            | [] => none
            | c2 :: r4 =>
              if c2 = '(' then
                let w := r4.takeWhile jsWordChar
                let r5 := r4.dropWhile jsWordChar
                if w.length = 0 then none
                else
                  match r5 with
                  | [] => none
                  | c3 :: r6 =>
                    if c3 = ')' then
                      let r7 := r6.dropWhile jsSpace
                      some (w, r7.takeWhile (fun ch => !(jsLineTerm ch)))
                    else none
              else none
          else none
    else none

/-- `line.match(LOG_LINE_REGEX)`, leftmost-position search. -/
def logLineMatch : List Char → Option (List Char × List Char) :=
  scanWith logLineMatchAt

/-- `TIMESTAMP_REGEX = /\[\s*(\d{4})\.(\d{2})\.(\d{2})\s+(\d{2}):(\d{2}):(\d{2})\s*\]/`
at one position; the six digit-group captures are returned.  `\d{n}` consumes
exactly `n` digits and every `\s` run borders a non-space, hence maximal. -/
def timestampMatchAt (s : List Char) :
    Option (List Char × List Char × List Char × List Char × List Char × List Char) :=
  match s with
  | [] => none
  | c :: r =>
    if c = '[' then do
      let r1 := r.dropWhile jsSpace
      let (y, r2) ← digitsExact 4 r1
      let r3 ← expectCh '.' r2
      let (mo, r4) ← digitsExact 2 r3
      let r5 ← expectCh '.' r4
      let (dy, r6) ← digitsExact 2 r5
      let r7 ← needWs r6
      let (hh, r8) ← digitsExact 2 r7
      let r9 ← expectCh ':' r8
      let (mi, r10) ← digitsExact 2 r9
      let r11 ← expectCh ':' r10
      let (ss, r12) ← digitsExact 2 r11
      let _ ← expectCh ']' (r12.dropWhile jsSpace)
      pure (y, mo, dy, hh, mi, ss)
    else none

/-- `line.match(TIMESTAMP_REGEX)`, leftmost-position search. -/
def timestampScan : List Char → Option (List Char × List Char × List Char × List Char × List Char × List Char) :=
  scanWith timestampMatchAt

/-- JavaScript `parseInt` restricted to the nonempty all-digit strings that
the `\d+` / `\d{n}` captures produce. -/
def digitsToNat (l : List Char) : ℕ :=
  l.foldl (fun a c => 10 * a + (c.toNat - 48)) 0

/-- Days since 1970-01-01 of a civil date (Hinnant's days-from-civil),
month 1..12; floor division throughout, as the calendar computation of the
host `Date` does. -/
def daysFromCivil (y m d : Int) : Int :=
  let y1 := if m ≤ 2 then y - 1 else y
  let era := y1.fdiv 400
  let yoe := y1 - era * 400
  let mp := (m + 9).fmod 12
  let doy := (153 * mp + 2).fdiv 5 + d - 1
  let doe := yoe * 365 + yoe.fdiv 4 - yoe.fdiv 100 + doy
  era * 146097 + doe - 719468

/-- Epoch milliseconds of `new Date(year, month - 1, day, hour, minute, second)`,
with the out-of-range month-index normalisation ECMAScript performs, modelled
at a fixed UTC offset of zero (the host-timezone offset of the source is
environment data that no verified claim depends on). -/
def dateValue (year month day hour minute second : ℕ) : Int :=
  let ym : Int := (year : Int) * 12 + ((month : Int) - 1)
  let days := daysFromCivil (ym.fdiv 12) (ym.fmod 12 + 1) 1 + ((day : Int) - 1)
  days * 86400000 + (hour : Int) * 3600000 + (minute : Int) * 60000 + (second : Int) * 1000

/-- logParser.js `parseTimestamp`: match `TIMESTAMP_REGEX`, `parseInt` each
capture, build the calendar value; null when the pattern is absent. -/
def parseTimestamp (line : String) : Option Int :=
  match timestampScan line.data with
  | none => none
  | some (y, mo, dy, hh, mi, ss) =>
    some (dateValue (digitsToNat y) (digitsToNat mo) (digitsToNat dy)
      (digitsToNat hh) (digitsToNat mi) (digitsToNat ss))

/-- One match of `/<[^>]+>/` starting right after a `<`: a nonempty maximal
run without `>` followed by `>`; returns the remainder after the `>`. -/
def tagSplit (s : List Char) : Option (List Char) :=
  let t := s.dropWhile (fun ch => ch != '>')
  if (s.takeWhile (fun ch => ch != '>')).length = 0 ∨ t.length = 0 then none
  else some t.tail

/-- Global replacement `str.replace(/<[^>]+>/g, '')`: left-to-right, each `<`
either opens a tag (skipped) or is kept verbatim when no tag starts there. -/
def stripTagsAux : List Char → List Char
  | [] => []
  | c :: r =>
    if c = '<' then
      match h : tagSplit r with
      | some r2 => stripTagsAux r2
      | none => c :: stripTagsAux r
    else c :: stripTagsAux r
termination_by l => l.length
decreasing_by
· simp only [tagSplit] at h
  split_ifs at h with hc
  push_neg at hc
  injection h with h1
  have hsum : (r.takeWhile (fun ch => ch != '>')).length +
      (r.dropWhile (fun ch => ch != '>')).length = r.length := by
    rw [← List.length_append, List.takeWhile_append_dropWhile]
  have hlt : r2.length = (r.dropWhile (fun ch => ch != '>')).length - 1 := by
    rw [← h1, List.length_tail]
  simp only [List.length_cons]
  omega
· simp only [List.length_cons]; omega
· simp only [List.length_cons]; omega

/-- JavaScript `String.prototype.trim` (whitespace and line terminators). -/
def jsTrim (l : List Char) : List Char :=
  ((l.dropWhile jsSpace).reverse.dropWhile jsSpace).reverse

/-- logParser.js `stripTags`: `str.replace(/<[^>]+>/g, '').trim()`. -/
def stripTags (s : String) : String :=
  String.mk (jsTrim (stripTagsAux s.data))

/-- Piece `<color=[^>]+>` (case-insensitive literal, then a nonempty maximal
`[^>]`-run forced by the following `>`). -/
def colorOpen (s : List Char) : Option (List Char) :=
  match litCI "<color=".data s with
  | none => none
  | some r => tagSplit r

/-- Piece `<b>(\d+)<\/b>`: returns (digit capture, remainder). -/
def boldNumber (s : List Char) : Option (List Char × List Char) :=
  match litCI "<b>".data s with
  | none => none
  | some r =>
    let ds := r.takeWhile Char.isDigit
    let r1 := r.dropWhile Char.isDigit
    if ds.length = 0 then none
    else (litCI "</b>".data r1).map (fun r2 => (ds, r2))

/-- Piece `<color=[^>]+><b>(\d+)<\/b>`. -/
def colorBoldNumber (s : List Char) : Option (List Char × List Char) :=
  (colorOpen s).bind boldNumber

/-- Piece `<b><color=[^>]+>([^<]+)<\/color><\/b>`: returns (name capture,
remainder).  `[^<]+` is maximal (followed by the `<` of `</color>`) and a
shorter run would abut a non-`<` character, so there is no backtracking. -/
def boldColorName (s : List Char) : Option (List Char × List Char) :=
  match litCI "<b>".data s with
  | none => none
  | some r =>
    match colorOpen r with
    | none => none
    | some r2 =>
      let nm := r2.takeWhile (fun ch => ch != '<')
      if nm.length = 0 then none
      else
        (litCI "</color></b>".data (r2.dropWhile (fun ch => ch != '<'))).map
          (fun r3 => (nm, r3))

/-- Piece `KW\s+<b><color=[^>]+>([^<]+)<\/color><\/b>` for a keyword `KW`
(`to` in `DAMAGE_DEALT_REGEX`, `from` in `DAMAGE_RECEIVED_REGEX`). -/
def kwTargetAt (kw : List Char) (s : List Char) : Option (List Char × List Char) :=
  match litCI kw s with
  | none => none
  | some r =>
    match needWs r with
    | none => none
    | some r1 => boldColorName r1

/-- The lazy gap `.*?` in front of `kwTargetAt`: expand shortest-first,
never across a LineTerminator (which `.` does not match). -/
def lazyKwTarget (kw : List Char) : List Char → Option (List Char × List Char)
  | [] => kwTargetAt kw []
  | c :: r =>
    match kwTargetAt kw (c :: r) with
    | some v => some v
    | none => if jsLineTerm c then none else lazyKwTarget kw r

/-- After the first `<color=[^>]+><b>(\d+)<\/b>` of `DAMAGE_DEALT_REGEX`:
one expansion point of the first `.*?`, trying
`<color=[^>]+><b>(\d+)<\/b>.*?to\s+<b><color=[^>]+>([^<]+)<\/color><\/b>`
at the current position.  The pieces are all deterministic, so on failure the
engine backtracks only by growing the enclosing lazy gaps. -/
def ddTryHere (s : List Char) : Option (List Char × List Char) :=
  match colorBoldNumber s with
  | none => none
  | some (d2, r2) => (lazyKwTarget "to".data r2).map (fun pr => (d2, pr.1))

/-- The first lazy gap of `DAMAGE_DEALT_REGEX`, expanded shortest-first. -/
def ddTail : List Char → Option (List Char × List Char)
  | [] => ddTryHere []
  | c :: r =>
    match ddTryHere (c :: r) with
    | some v => some v
    | none => if jsLineTerm c then none else ddTail r

/-- `DAMAGE_DEALT_REGEX` tried at one position: returns the three captures
(first damage number, second number, target name). -/
def damageDealtAt (s : List Char) : Option (List Char × List Char × List Char) :=
  match colorBoldNumber s with
  | none => none
  | some (d1, r) => (ddTail r).map (fun pr => (d1, pr.1, pr.2))

/-- `content.match(DAMAGE_DEALT_REGEX)`, leftmost-position search. -/
def damageDealtMatch : List Char → Option (List Char × List Char × List Char) :=
  scanWith damageDealtAt

/-- `DAMAGE_RECEIVED_REGEX = /<color=[^>]+><b>(\d+)<\/b>.*?from\s+<b><color=[^>]+>([^<]+)<\/color><\/b>/i`
tried at one position: returns (damage number, source name). -/
def damageReceivedAt (s : List Char) : Option (List Char × List Char) :=
  match colorBoldNumber s with
  | none => none
  | some (d, r) => (lazyKwTarget "from".data r).map (fun pr => (d, pr.1))

/-- `content.match(DAMAGE_RECEIVED_REGEX)`, leftmost-position search. -/
def damageReceivedMatch : List Char → Option (List Char × List Char) :=
  scanWith damageReceivedAt

/-- Shared tail `\s+completely` of `MISS_REGEX`. -/
def missTail (s : List Char) : Option (List Char) :=
  match needWs s with
  | none => none
  | some r => litCI "completely".data r

/-- `MISS_REGEX = /misses\s+(?:you|<b><color=[^>]+>([^<]+)<\/color><\/b>)\s+completely/i`
tried at one position.  The alternation tries `you` first (including the
shared tail, into which the engine backtracks on failure); result is the
optional capture group: `none` for the `you` branch, the name otherwise. -/
def missAt (s : List Char) : Option (Option (List Char)) :=
  match litCI "misses".data s with
  | none => none
  | some r =>
    match needWs r with
    | none => none
    | some r1 =>
      match (litCI "you".data r1).bind missTail with
      | some _ => some none
      | none =>
        match boldColorName r1 with
        | none => none
        | some (nm, r2) => (missTail r2).map (fun _ => some nm)

/-- `content.match(MISS_REGEX)`, leftmost-position search. -/
def missMatch : List Char → Option (Option (List Char)) :=
  scanWith missAt

/-- `WEAPON_REGEX` (the pattern `-\s+<color=[^>]+><font[^>]*>([^<]+)<\/font>`
with the `i` flag) tried at one position: returns the weapon-name capture.
`[^>]*` may be empty and is maximal (followed by `>`). -/
def weaponAt (s : List Char) : Option (List Char) :=
  match s with
  | [] => none
  | c :: r =>
    if c = '-' then
      match needWs r with
      | none => none
      | some r1 =>
        match colorOpen r1 with
        | none => none
        | some r2 =>
          match litCI "<font".data r2 with
          | none => none
          | some r3 =>
            match r3.dropWhile (fun ch => ch != '>') with
            | [] => none
            | c2 :: r4 =>
              if c2 = '>' then
                let nm := r4.takeWhile (fun ch => ch != '<')
                if nm.length = 0 then none
                else
                  (litCI "</font>".data (r4.dropWhile (fun ch => ch != '<'))).map
                    (fun _ => nm)
              else none
    else none

/-- `content.match(WEAPON_REGEX)`, leftmost-position search. -/
def weaponMatch : List Char → Option (List Char) :=
  scanWith weaponAt

/-- The alternatives of `HIT_QUALITY_REGEX`, in source order. -/
def qualityKeywords : List (List Char) :=
  ["wrecks".data, "penetrates".data, "hits".data, "grazes".data,
   "glances".data, "smashes".data]

/-- Try each alternative in order as a case-insensitive literal; the capture
is the consumed input slice (input casing preserved, as JavaScript does). -/
def tryKeywords : List (List Char) → List Char → Option (List Char)
  | [], _ => none
  | kw :: rest, s =>
    match litCI kw s with
    | some _ => some (s.take kw.length)
    | none => tryKeywords rest s

/-- `HIT_QUALITY_REGEX = /(wrecks|penetrates|hits|grazes|glances|smashes)/i`
tried at one position. -/
def hitQualityAt (s : List Char) : Option (List Char) :=
  tryKeywords qualityKeywords s

/-- `content.match(HIT_QUALITY_REGEX)`, leftmost-position search. -/
def hitQualityMatch : List Char → Option (List Char) :=
  scanWith hitQualityAt

/-! ## logParser.js — events and parseCombatLine -/

/-- The value of `event.type`. -/
inductive EventType
  | unknown
  | damage_dealt
  | damage_received
  | miss
deriving DecidableEq

/-- A parsed combat event; `Option` models a field JavaScript leaves
`undefined`/null. -/
structure CombatEvent where
  timestamp : Option Int
  raw : String
  type : EventType
  damage : Option ℕ
  target : Option String
  source : Option String
  weapon : Option String
  hitQuality : Option String
deriving DecidableEq

/-- logParser.js `parseCombatLine`: line-shape match, channel check, then the
three classification checks run unconditionally in source order (damage
dealt, damage received, miss), each overwriting `type` and its own fields on
a match; weapon and hit-quality extraction are independent of the type. -/
def parseCombatLine (line : String) : Option CombatEvent :=
  let timestamp := parseTimestamp line
  match logLineMatch line.data with
  | none => none
  | some (ty, content) =>
    if ty ≠ "combat".data then none
    else
      let e0 : CombatEvent :=
        ⟨timestamp, line, EventType.unknown, none, none, none, none, none⟩
      let e1 :=
        match damageDealtMatch content with
        | some (d1, _, tg) =>
          { e0 with type := EventType.damage_dealt,
                    damage := some (digitsToNat d1),
                    target := some (stripTags (String.mk tg)) }
        | none => e0
      let e2 :=
        match damageReceivedMatch content with
        | some (d, src) =>
          { e1 with type := EventType.damage_received,
                    damage := some (digitsToNat d),
                    source := some (stripTags (String.mk src)) }
        | none => e1
      let e3 :=
        match missMatch content with
        | some mt =>
          { e2 with type := EventType.miss,
                    target := some (match mt with
                      | some t => stripTags (String.mk t)
                      | none => "you") }
        | none => e2
      let e4 :=
        match weaponMatch content with
        | some w => { e3 with weapon := some (stripTags (String.mk w)) }
        | none => e3
      let e5 :=
        match hitQualityMatch content with
        | some q => { e4 with hitQuality := some (String.mk (q.map Char.toLower)) }
        | none => e4
      some e5

/-- logParser.js `parseLogContent`: split on line-feed, parse each line,
push every event whose type is not `unknown`, in order. -/
def parseLogContent (content : String) : List CombatEvent :=
  (content.splitOn "\n").foldl
    (fun acc line =>
      match parseCombatLine line with
      | some e => if e.type ≠ EventType.unknown then acc ++ [e] else acc
      | none => acc)
    []

/-- A bracketed timestamp-shaped block as required by `LOG_LINE_REGEX`:
somewhere in the line, a `[`, a nonempty run of `[\d.:\s]` characters, and a
closing `]`. -/
def HasTsBlock (l : List Char) : Prop :=
  ∃ pre run rest, l = pre ++ '[' :: (run ++ ']' :: rest) ∧ run ≠ [] ∧
    ∀ ch ∈ run, tsClassChar ch = true

/-! ## logParser.js — calculateStats

Numeric model for the aggregator: exact rationals.  JavaScript `undefined`
propagating through `+` and `/` yields `NaN`; both `undefined` and `NaN` are
modelled as `none` of an `Option` (`x + undefined` is `NaN`, and `NaN`
absorbs), which is adequate because `NaN` never compares equal and is only
produced, never branched on, by the source.  Object maps are association
lists in insertion order. -/

/-- One record of `stats.weapons`. -/
structure WeaponRecord where
  damage : Option ℚ
  hits : ℕ
  misses : ℕ
deriving DecidableEq

/-- The statistics record of `calculateStats`.  `timespanStart` and
`timespanEnd` are `timespan.start` and `timespan.end`; `dps = none` models
the field being absent (never assigned), `some none` an assigned `NaN`. -/
structure CombatStats where
  totalDamageDealt : Option ℚ
  totalDamageReceived : Option ℚ
  shotsHit : ℕ
  shotsMissed : ℕ
  hitRate : ℚ
  targets : List (String × Option ℚ)
  weapons : List (String × WeaponRecord)
  hitQualities : List (String × ℕ)
  timespanStart : Option Int
  timespanEnd : Option Int
  dps : Option (Option ℚ)
deriving DecidableEq

/-- JavaScript `a + b` where `a` may already be `NaN` and `b` may be
`undefined` (`none`): any `none` absorbs. -/
def jsAdd (a : Option ℚ) (b : Option ℕ) : Option ℚ :=
  match a, b with
  | some x, some y => some (x + (y : ℚ))
  | _, _ => none

/-- JavaScript `(map[k] || 0)`: a missing key, a stored `NaN` and a stored
`0` all give `0` (both `undefined` and `NaN` are falsy). -/
def getOrZero (m : List (String × Option ℚ)) (k : String) : ℚ :=
  match m.lookup k with
  | some (some q) => q
  | _ => 0

/-- Assignment `map[k] = v` on an insertion-ordered object map. -/
def setAssoc {β : Type} : List (String × β) → String → β → List (String × β)
  | [], k, v => [(k, v)]
  | (k1, v1) :: t, k, v =>
    if k1 == k then (k, v) :: t else (k1, v1) :: setAssoc t k v

/-- The literal initial `stats` object of `calculateStats`. -/
def statsInit : CombatStats :=
  { totalDamageDealt := some 0
    totalDamageReceived := some 0
    shotsHit := 0
    shotsMissed := 0
    hitRate := 0
    targets := []
    weapons := []
    hitQualities := []
    timespanStart := none
    timespanEnd := none
    dps := none }

/-- The timespan-tracking prefix of the loop body of `calculateStats`:
`if (event.timestamp) { if (!start || ts < start) start = ts;
if (!end || ts > end) end = ts; }` (a Date object is always truthy, null is
falsy, and Dates compare through their millisecond value). -/
def updateTimespan (stats : CombatStats) (event : CombatEvent) : CombatStats :=
  match event.timestamp with
  | none => stats
  | some ts =>
    let stats :=
      match stats.timespanStart with
      | none => { stats with timespanStart := some ts }
      | some st => if ts < st then { stats with timespanStart := some ts } else stats
    match stats.timespanEnd with
    | none => { stats with timespanEnd := some ts }
    | some en => if en < ts then { stats with timespanEnd := some ts } else stats

/-- The body of the `for (const event of events)` loop of `calculateStats`:
timespan tracking for every timestamped event, then the per-type branch. -/
def statsStep (stats0 : CombatStats) (event : CombatEvent) : CombatStats :=
  let stats := updateTimespan stats0 event
  match event.type with
  | EventType.damage_dealt =>
    let s1 := { stats with
      totalDamageDealt := jsAdd stats.totalDamageDealt event.damage
      shotsHit := stats.shotsHit + 1 }
    let s2 :=
      match event.target with
      | some t =>
        if t.isEmpty then s1
        else { s1 with
          targets := setAssoc s1.targets t (jsAdd (some (getOrZero s1.targets t)) event.damage) }
      | none => s1
    let s3 :=
      match event.weapon with
      | some w =>
        if w.isEmpty then s2
        else
          let r0 :=
            match s2.weapons.lookup w with
            | some r => r
            | none => ⟨some 0, 0, 0⟩
          { s2 with
            weapons := setAssoc s2.weapons w
              ⟨jsAdd r0.damage event.damage, r0.hits + 1, r0.misses⟩ }
      | none => s2
    let s4 :=
      match event.hitQuality with
      | some q =>
        if q.isEmpty then s3
        else
          let c0 :=
            match s3.hitQualities.lookup q with
            | some n => n
            | none => 0
          { s3 with hitQualities := setAssoc s3.hitQualities q (c0 + 1) }
      | none => s3
    s4
  | EventType.damage_received =>
    { stats with totalDamageReceived := jsAdd stats.totalDamageReceived event.damage }
  | EventType.miss =>
    let s1 := { stats with shotsMissed := stats.shotsMissed + 1 }
    match event.weapon with
    | some w =>
      if w.isEmpty then s1
      else
        let r0 :=
          match s1.weapons.lookup w with
          | some r => r
          | none => ⟨some 0, 0, 0⟩
        { s1 with weapons := setAssoc s1.weapons w ⟨r0.damage, r0.hits, r0.misses + 1⟩ }
    | none => s1
  | EventType.unknown => stats

/-- logParser.js `calculateStats`: the fold, then
`hitRate = totalShots > 0 ? shotsHit / totalShots * 100 : 0`, then
`if (start && end) dps = durationSeconds > 0 ? totalDamageDealt / durationSeconds : 0`. -/
def calculateStats (events : List CombatEvent) : CombatStats :=
  let s0 := events.foldl statsStep statsInit
  let totalShots := s0.shotsHit + s0.shotsMissed
  let s1 := { s0 with
    hitRate := if 0 < totalShots then ((s0.shotsHit : ℚ) / (totalShots : ℚ)) * 100 else 0 }
  match s0.timespanStart, s0.timespanEnd with
  | some st, some en =>
    let durationSeconds : ℚ := (((en - st : Int)) : ℚ) / 1000
    { s1 with
      dps := some (if 0 < durationSeconds
        then s0.totalDamageDealt.map (fun t => t / durationSeconds)
        else some 0) }
  | _, _ => s1

/-! ## Helper lemmas -/

theorem ereal_mul_self_nonneg (q : EReal) : 0 ≤ q * q := by
  induction q using EReal.rec with
  | h_bot => rw [EReal.bot_mul_bot]; exact le_top
  | h_real a => rw [← EReal.coe_mul]; exact EReal.coe_nonneg.2 (mul_self_nonneg a)
  | h_top => rw [EReal.top_mul_top]; exact le_top

theorem trackingComponent_nonneg (a : EReal) (t s : ℝ) :
    0 ≤ calculateTrackingComponent a t s := by
  unfold calculateTrackingComponent
  split_ifs with h
  · exact le_top
  · exact ereal_mul_self_nonneg _

theorem rangeComponent_nonneg (d o f : ℝ) : 0 ≤ calculateRangeComponent d o f := by
  unfold calculateRangeComponent
  by_cases h1 : f ≤ 0
  · rw [if_pos h1]
    by_cases h2 : o < d
    · rw [if_pos h2]
      exact le_top
    · rw [if_neg h2]
  · rw [if_neg h1]
    exact EReal.coe_nonneg.2 (mul_self_nonneg _)

theorem ereal_toReal_nonneg {x : EReal} (h : 0 ≤ x) : 0 ≤ x.toReal := by
  induction x using EReal.rec with
  | h_bot => rw [EReal.toReal_bot]
  | h_real a => rw [EReal.toReal_coe]; exact EReal.coe_nonneg.1 h
  | h_top => rw [EReal.toReal_top]

theorem powBaseHalf_mem {e : EReal} (he : 0 ≤ e) :
    0 ≤ powBaseHalf e ∧ powBaseHalf e ≤ 1 := by
  unfold powBaseHalf
  split_ifs with h1 h2
  · exact ⟨le_refl 0, zero_le_one⟩
  · exfalso
    rw [h2] at he
    exact absurd he (not_le.2 EReal.bot_lt_zero)
  · have hx : 0 ≤ e.toReal := ereal_toReal_nonneg he
    constructor
    · exact EReal.coe_nonneg.2 (Real.rpow_nonneg (by norm_num) _)
    · rw [← EReal.coe_one]
      exact EReal.coe_le_coe_iff.2 (Real.rpow_le_one (by norm_num) (by norm_num) hx)

theorem ereal_clamp01 {x : EReal} (h0 : 0 ≤ x) (h1 : x ≤ 1) :
    min 1 (max 0 x) = x := by
  rw [max_eq_right h0, min_eq_right h1]

theorem ecoe_div (x y : ℝ) : ((x / y : ℝ) : EReal) = (x : EReal) / (y : EReal) := by
  rw [div_eq_mul_inv, div_eq_mul_inv, EReal.coe_mul, EReal.coe_inv]

theorem log_half_ne_zero : Real.log 0.5 ≠ 0 := by
  rw [Real.log_ne_zero]
  norm_num

/-! ## Claims about calculator.js -/

/-- C1: for every real-valued input, the reported `hitChance` equals
`0.5 ^ (trackingComponent + rangeComponent)` and lies in `[0, 1]`; the clamp
`Math.min(1, Math.max(0, hitChance))` never changes the value because the
exponent is nonnegative. -/
theorem hitChance_eq_powBaseHalf (p : HitParams) :
    (calculateHitChance p).hitChance =
      powBaseHalf
        ((calculateHitChance p).trackingComponent + (calculateHitChance p).rangeComponent) ∧
    0 ≤ (calculateHitChance p).hitChance ∧ (calculateHitChance p).hitChance ≤ 1 := by
  have he : 0 ≤
      calculateTrackingComponent (calculateAngularVelocity p.transversal p.distance)
        p.trackingSpeed p.signatureRadius +
      calculateRangeComponent p.distance p.optimalRange p.falloff :=
    add_nonneg (trackingComponent_nonneg _ _ _) (rangeComponent_nonneg _ _ _)
  obtain ⟨hp0, hp1⟩ := powBaseHalf_mem he
  simp only [calculateHitChance]
  rw [ereal_clamp01 hp0 hp1]
  exact ⟨rfl, hp0, hp1⟩

/-- C3: `calculateMaxTransversal` follows the piecewise contract: 0 for
`targetHitChance ≤ 0` or `> 1`; infinity when
`totalExponent - rangeComponent ≤ 0`; otherwise
`sqrt(totalExponent - rangeComponent) * trackingSpeed * signatureRadius
/ 40000 * distance`. -/
theorem maxTransversal_piecewise (p : InverseParams) :
    (p.targetHitChance ≤ 0 ∨ 1 < p.targetHitChance → calculateMaxTransversal p = 0) ∧
    (¬(p.targetHitChance ≤ 0 ∨ 1 < p.targetHitChance) →
      (((Real.log p.targetHitChance / Real.log 0.5 : ℝ) : EReal) -
          calculateRangeComponent p.distance p.optimalRange p.falloff ≤ 0 →
        calculateMaxTransversal p = ⊤) ∧
      (¬(((Real.log p.targetHitChance / Real.log 0.5 : ℝ) : EReal) -
          calculateRangeComponent p.distance p.optimalRange p.falloff ≤ 0) →
        calculateMaxTransversal p =
          ((Real.sqrt
              ((((Real.log p.targetHitChance / Real.log 0.5 : ℝ) : EReal) -
                calculateRangeComponent p.distance p.optimalRange p.falloff).toReal) *
            p.trackingSpeed * p.signatureRadius / SIGNATURE_RESOLUTION *
            p.distance : ℝ) : EReal))) := by
  refine ⟨fun h => by simp [calculateMaxTransversal, h], fun h => ⟨fun hle => ?_, fun hgt => ?_⟩⟩
  · simp [calculateMaxTransversal, h, hle]
  · simp [calculateMaxTransversal, h, hgt]

/-- C3 witness: an out-of-range target hit chance of 1.5 yields 0 (the
spec's own example). -/
theorem maxTransversal_piecewise_witness :
    calculateMaxTransversal ⟨1.5, 1000, 0.1, 100, 10000, 5000⟩ = 0 :=
  (maxTransversal_piecewise ⟨1.5, 1000, 0.1, 100, 10000, 5000⟩).1 (Or.inr (by norm_num))

/-- C4 counterexample: with a negative tracking speed (a real-valued input
the claim quantifies over) the returned transversal is negative, refuting
"greater than or equal to 0 for every input parameter set". -/
theorem maxTransversal_neg_example :
    calculateMaxTransversal ⟨0.5, 1000, -1, 100, 10000, 5000⟩ < 0 := by
  have hE : Real.log (0.5 : ℝ) / Real.log 0.5 = 1 := div_self log_half_ne_zero
  have hR : calculateRangeComponent 1000 10000 5000 = ((0 : ℝ) : EReal) := by
    unfold calculateRangeComponent
    rw [if_neg (by norm_num : ¬(5000 : ℝ) ≤ 0)]
    norm_num
  simp only [calculateMaxTransversal]
  rw [if_neg (by norm_num : ¬((0.5 : ℝ) ≤ 0 ∨ 1 < (0.5 : ℝ)))]
  rw [hR, hE, ← EReal.coe_sub]
  rw [if_neg (by rw [EReal.coe_nonpos]; norm_num)]
  rw [EReal.toReal_coe]
  have : Real.sqrt (1 - 0) = 1 := by norm_num [Real.sqrt_one]
  rw [this]
  rw [show (1 * (-1) * 100 / SIGNATURE_RESOLUTION * 1000 : ℝ) = -2.5 by
    norm_num [SIGNATURE_RESOLUTION]]
  exact EReal.coe_neg'.2 (by norm_num)

/-- C4 amended: for nonnegative trackingSpeed, signatureRadius and distance,
`calculateMaxTransversal` returns a value greater than or equal to 0
(possibly positive infinity); with a negative input among these it can be
negative, as the counterexample shows. -/
theorem maxTransversal_nonneg (p : InverseParams) (ht : 0 ≤ p.trackingSpeed)
    (hs : 0 ≤ p.signatureRadius) (hd : 0 ≤ p.distance) :
    0 ≤ calculateMaxTransversal p := by
  simp only [calculateMaxTransversal]
  split_ifs with h1 h2
  · exact le_refl 0
  · exact le_top
  · refine EReal.coe_nonneg.2 ?_
    have h40 : (0 : ℝ) ≤ SIGNATURE_RESOLUTION := by norm_num [SIGNATURE_RESOLUTION]
    exact mul_nonneg
      (div_nonneg (mul_nonneg (mul_nonneg (Real.sqrt_nonneg _) ht) hs) h40) hd

/-- C4 witness: a concrete in-range parameter set. -/
theorem maxTransversal_nonneg_witness :
    0 ≤ calculateMaxTransversal ⟨0.5, 1000, 1, 100, 10000, 5000⟩ :=
  maxTransversal_nonneg ⟨0.5, 1000, 1, 100, 10000, 5000⟩
    (by norm_num) (by norm_num) (by norm_num)

/-- C2 counterexample: at distance 0 (a parameter set satisfying every
condition the claim states: target chance strictly between 0 and 1, range
component strictly below `log(target)/log(0.5)`) the round trip fails — the
inverse returns transversal 0, and the forward model at distance 0 has an
infinite tracking component, so the reported hit chance is 0, not 0.5. -/
theorem roundTrip_cex :
    (0 : ℝ) < 0.5 ∧ (0.5 : ℝ) < 1 ∧
    calculateRangeComponent 0 10000 5000 <
      ((Real.log 0.5 / Real.log 0.5 : ℝ) : EReal) ∧
    (calculateHitChance
        ⟨(calculateMaxTransversal ⟨0.5, 0, 1, 100, 10000, 5000⟩).toReal,
          0, 1, 100, 10000, 5000⟩).hitChance ≠ ((0.5 : ℝ) : EReal) := by
  have hE1 : Real.log (0.5 : ℝ) / Real.log 0.5 = 1 := div_self log_half_ne_zero
  have hR : calculateRangeComponent 0 10000 5000 = ((0 : ℝ) : EReal) := by
    unfold calculateRangeComponent
    rw [if_neg (by norm_num : ¬(5000 : ℝ) ≤ 0)]
    rw [EReal.coe_eq_coe_iff]
    rw [show max (0 : ℝ) (0 - 10000) = 0 from max_eq_left (by norm_num)]
    norm_num
  refine ⟨by norm_num, by norm_num, ?_, ?_⟩
  · rw [hR, hE1]
    exact EReal.coe_lt_coe_iff.2 (by norm_num)
  · have hv : calculateMaxTransversal ⟨0.5, 0, 1, 100, 10000, 5000⟩ = ((0 : ℝ) : EReal) := by
      simp only [calculateMaxTransversal]
      rw [if_neg (by norm_num : ¬((0.5 : ℝ) ≤ 0 ∨ 1 < (0.5 : ℝ)))]
      rw [hR, hE1, ← EReal.coe_sub]
      rw [if_neg (by rw [EReal.coe_nonpos]; norm_num)]
      rw [EReal.toReal_coe, EReal.coe_eq_coe_iff]
      norm_num
    rw [hv, EReal.toReal_coe]
    have hang : calculateAngularVelocity 0 0 = ⊤ := by
      unfold calculateAngularVelocity
      rw [if_pos (le_refl (0 : ℝ))]
    have htc : calculateTrackingComponent ⊤ 1 100 = ⊤ := by
      unfold calculateTrackingComponent
      rw [if_neg (by norm_num : ¬((1 : ℝ) ≤ 0 ∨ (100 : ℝ) ≤ 0))]
      have h1 : (⊤ : EReal) * ((SIGNATURE_RESOLUTION : ℝ) : EReal) = ⊤ :=
        EReal.top_mul_coe_of_pos (by norm_num [SIGNATURE_RESOLUTION])
      have h2 : (⊤ : EReal) / (((1 * 100 : ℝ)) : EReal) = ⊤ :=
        EReal.top_div_of_pos_ne_top (EReal.coe_pos.2 (by norm_num)) (EReal.coe_ne_top _)
      rw [h1, h2, EReal.top_mul_top]
    have hhc : (calculateHitChance ⟨0, 0, 1, 100, 10000, 5000⟩).hitChance = 0 := by
      simp only [calculateHitChance]
      rw [hang, htc, hR, EReal.top_add_coe]
      rw [show powBaseHalf ⊤ = 0 from by unfold powBaseHalf; rw [if_pos rfl]]
      simp
    rw [hhc]
    intro hx
    rw [← EReal.coe_zero, EReal.coe_eq_coe_iff] at hx
    norm_num at hx

/-- C2 amended: the round trip holds once distance, trackingSpeed and
signatureRadius are strictly positive (the counterexample shows the claim
fails without them): for `0 < targetHitChance < 1` and range component
strictly below `log(target)/log(0.5)`, feeding the returned transversal back
into `calculateHitChance` with the same other parameters reproduces the
target hit chance exactly. -/
theorem roundTrip (p : InverseParams) (hd : 0 < p.distance)
    (ht : 0 < p.trackingSpeed) (hs : 0 < p.signatureRadius)
    (hh0 : 0 < p.targetHitChance) (hh1 : p.targetHitChance < 1)
    (hR : calculateRangeComponent p.distance p.optimalRange p.falloff <
      ((Real.log p.targetHitChance / Real.log 0.5 : ℝ) : EReal)) :
    (calculateHitChance
        ⟨(calculateMaxTransversal p).toReal, p.distance, p.trackingSpeed,
          p.signatureRadius, p.optimalRange, p.falloff⟩).hitChance =
      ((p.targetHitChance : ℝ) : EReal) := by
  have h40 : (SIGNATURE_RESOLUTION : ℝ) ≠ 0 := by norm_num [SIGNATURE_RESOLUTION]
  set E : ℝ := Real.log p.targetHitChance / Real.log 0.5 with hEdef
  have hlogh : Real.log p.targetHitChance < 0 := Real.log_neg hh0 hh1
  have hlog5 : Real.log (0.5 : ℝ) < 0 := Real.log_neg (by norm_num) (by norm_num)
  have hEpos : 0 < E := div_pos_iff.2 (Or.inr ⟨hlogh, hlog5⟩)
  have hRnn : 0 ≤ calculateRangeComponent p.distance p.optimalRange p.falloff :=
    rangeComponent_nonneg _ _ _
  have hRnetop : calculateRangeComponent p.distance p.optimalRange p.falloff ≠ ⊤ :=
    (hR.trans (EReal.coe_lt_top E)).ne
  have hRnebot : calculateRangeComponent p.distance p.optimalRange p.falloff ≠ ⊥ :=
    (lt_of_lt_of_le EReal.bot_lt_zero hRnn).ne'
  set r : ℝ := (calculateRangeComponent p.distance p.optimalRange p.falloff).toReal with hrdef
  have hRr : calculateRangeComponent p.distance p.optimalRange p.falloff = (r : EReal) :=
    (EReal.coe_toReal hRnetop hRnebot).symm
  have hrnn : 0 ≤ r := ereal_toReal_nonneg hRnn
  have hrE : r < E := by
    rw [hRr] at hR
    exact EReal.coe_lt_coe_iff.1 hR
  have hErnn : 0 ≤ E - r := by linarith
  have hsq : Real.sqrt (E - r) * Real.sqrt (E - r) = E - r := Real.mul_self_sqrt hErnn
  have hv : calculateMaxTransversal p =
      ((Real.sqrt (E - r) * p.trackingSpeed * p.signatureRadius / SIGNATURE_RESOLUTION *
        p.distance : ℝ) : EReal) := by
    simp only [calculateMaxTransversal]
    rw [if_neg (by push_neg; exact ⟨hh0, hh1.le⟩)]
    rw [hRr, ← hEdef, ← EReal.coe_sub]
    rw [if_neg (by rw [EReal.coe_nonpos]; linarith)]
    rw [EReal.toReal_coe]
  have hang : calculateAngularVelocity
      (Real.sqrt (E - r) * p.trackingSpeed * p.signatureRadius / SIGNATURE_RESOLUTION *
        p.distance) p.distance =
      ((Real.sqrt (E - r) * p.trackingSpeed * p.signatureRadius /
        SIGNATURE_RESOLUTION : ℝ) : EReal) := by
    unfold calculateAngularVelocity
    rw [if_neg (not_le.2 hd)]
    rw [EReal.coe_eq_coe_iff]
    field_simp
    ring
  have htc : calculateTrackingComponent
      ((Real.sqrt (E - r) * p.trackingSpeed * p.signatureRadius /
        SIGNATURE_RESOLUTION : ℝ) : EReal) p.trackingSpeed p.signatureRadius =
      ((E - r : ℝ) : EReal) := by
    unfold calculateTrackingComponent
    rw [if_neg (by push_neg; exact ⟨ht, hs⟩)]
    rw [← EReal.coe_mul, ← ecoe_div, ← EReal.coe_mul, EReal.coe_eq_coe_iff]
    rw [show Real.sqrt (E - r) * p.trackingSpeed * p.signatureRadius /
        SIGNATURE_RESOLUTION * SIGNATURE_RESOLUTION / (p.trackingSpeed * p.signatureRadius) =
        Real.sqrt (E - r) from by field_simp; ring]
    exact hsq
  simp only [calculateHitChance]
  rw [hv, EReal.toReal_coe, hang, htc, hRr, ← EReal.coe_add]
  rw [show E - r + r = E from by ring]
  have hpow : powBaseHalf ((E : ℝ) : EReal) = ((p.targetHitChance : ℝ) : EReal) := by
    unfold powBaseHalf
    rw [if_neg (EReal.coe_ne_top E), if_neg (EReal.coe_ne_bot E), EReal.toReal_coe]
    rw [EReal.coe_eq_coe_iff]
    rw [Real.rpow_def_of_pos (by norm_num : (0 : ℝ) < 0.5)]
    rw [hEdef, mul_comm, div_mul_cancel₀ _ log_half_ne_zero]
    exact Real.exp_log hh0
  rw [hpow]
  exact ereal_clamp01 (EReal.coe_nonneg.2 hh0.le)
    (by rw [← EReal.coe_one]; exact EReal.coe_le_coe_iff.2 hh1.le)

/-- C2 witness: a concrete positive parameter set where the inverse returns
transversal 1 and the forward model reports exactly the target chance 0.5. -/
theorem roundTrip_witness :
    (calculateHitChance
        ⟨(calculateMaxTransversal ⟨0.5, 40000, 1, 1, 40000, 5000⟩).toReal,
          40000, 1, 1, 40000, 5000⟩).hitChance = ((0.5 : ℝ) : EReal) := by
  have hR : calculateRangeComponent 40000 40000 5000 = ((0 : ℝ) : EReal) := by
    unfold calculateRangeComponent
    rw [if_neg (by norm_num : ¬(5000 : ℝ) ≤ 0)]
    rw [EReal.coe_eq_coe_iff]
    rw [show max (0 : ℝ) (40000 - 40000) = 0 from max_eq_left (by norm_num)]
    norm_num
  refine roundTrip ⟨0.5, 40000, 1, 1, 40000, 5000⟩ (by norm_num) (by norm_num)
    (by norm_num) (by norm_num) (by norm_num) ?_
  rw [hR, div_self log_half_ne_zero]
  exact EReal.coe_lt_coe_iff.2 (by norm_num)

/-! ## Claims about the line parser -/

theorem logLineMatchAt_block {l : List Char} {x : List Char × List Char}
    (h : logLineMatchAt l = some x) :
    ∃ run rest, l = '[' :: (run ++ ']' :: rest) ∧ run ≠ [] ∧
      ∀ ch ∈ run, tsClassChar ch = true := by
  cases l with
  | nil => simp [logLineMatchAt] at h
  | cons ch r =>
    simp only [logLineMatchAt] at h
    by_cases hc : ch = '['
    · subst hc
      rw [if_pos rfl] at h
      by_cases hrun : (r.takeWhile tsClassChar).length = 0
      · rw [if_pos hrun] at h
        exact absurd h (by simp)
      · rw [if_neg hrun] at h
        split at h
        · exact absurd h (by simp)
        · rename_i c1 r2 heq
          by_cases hc1 : c1 = ']'
          · subst hc1
            refine ⟨r.takeWhile tsClassChar, r2, ?_, ?_, ?_⟩
            · have hta := List.takeWhile_append_dropWhile (p := tsClassChar) (l := r)
              rw [heq] at hta
              rw [hta]
            · intro hnil
              rw [hnil] at hrun
              simp at hrun
            · intro a ha
              exact List.mem_takeWhile_imp ha
          · rw [if_neg hc1] at h
            exact absurd h (by simp)
    · rw [if_neg hc] at h
      exact absurd h (by simp)

theorem logLineMatch_block {l : List Char} {x : List Char × List Char}
    (h : logLineMatch l = some x) : HasTsBlock l := by
  unfold logLineMatch at h
  induction l with
  | nil => simp [scanWith, logLineMatchAt] at h
  | cons c r ih =>
    rw [scanWith] at h
    cases hat : logLineMatchAt (c :: r) with
    | some v =>
      obtain ⟨run, rest, hsh, hne, hall⟩ := logLineMatchAt_block hat
      exact ⟨[], run, rest, by rw [hsh]; rfl, hne, hall⟩
    | none =>
      rw [hat] at h
      obtain ⟨pre, run, rest, hsh, hne, hall⟩ := ih h
      exact ⟨c :: pre, run, rest, by rw [hsh]; rfl, hne, hall⟩

/-- C10: the line-shape pattern demands a bracketed block of
digits/dots/colons/spaces before the channel marker — every line that
`parseCombatLine` accepts contains such a block, and a line without one is
rejected even when it contains a well-formed `(combat)` message. -/
theorem lineShape_requires_block :
    (∀ line : String, parseCombatLine line ≠ none → HasTsBlock line.data) ∧
    parseCombatLine
      "(combat) <color=a><b>7</b> x <color=b><b>8</b> to <b><color=c>T</color></b>" =
      none := by
  constructor
  · intro line hline
    cases hl : logLineMatch line.data with
    | none =>
      exfalso
      apply hline
      unfold parseCombatLine
      rw [hl]
    | some v => exact logLineMatch_block hl
  · decide

/-- C10 witness: a line that parses indeed exhibits the bracketed block. -/
theorem lineShape_requires_block_witness :
    HasTsBlock ("[ 2024.01.01 00:00:00 ] (combat) misses you completely" : String).data :=
  lineShape_requires_block.1 "[ 2024.01.01 00:00:00 ] (combat) misses you completely"
    (by decide)

/-- C5: the three classification checks run unconditionally and each
overwrites `event.type` on a match, so the resulting type is decided by the
latest matching rule in source order: miss overrides damage-received, which
overrides damage-dealt. -/
theorem classification_precedence (line : String) (c : List Char)
    (hl : logLineMatch line.data = some ("combat".data, c)) :
    (missMatch c ≠ none →
      (parseCombatLine line).map (fun e => e.type) = some EventType.miss) ∧
    (missMatch c = none → damageReceivedMatch c ≠ none →
      (parseCombatLine line).map (fun e => e.type) = some EventType.damage_received) ∧
    (missMatch c = none → damageReceivedMatch c = none → damageDealtMatch c ≠ none →
      (parseCombatLine line).map (fun e => e.type) = some EventType.damage_dealt) := by
  have hcombat : ¬("combat".data ≠ "combat".data) := fun hq => hq rfl
  refine ⟨?_, ?_, ?_⟩
  · intro hm
    obtain ⟨mt, hmt⟩ := Option.ne_none_iff_exists'.1 hm
    simp only [parseCombatLine, hl]
    rw [if_neg hcombat, hmt]
    rcases damageDealtMatch c with _ | ⟨d1, d2, tg⟩ <;>
      rcases damageReceivedMatch c with _ | ⟨dr1, src⟩ <;>
        rcases weaponMatch c with _ | w <;>
          rcases hitQualityMatch c with _ | q <;> rfl
  · intro hm hr
    obtain ⟨dv, hdv⟩ := Option.ne_none_iff_exists'.1 hr
    simp only [parseCombatLine, hl]
    rw [if_neg hcombat, hm, hdv]
    rcases dv with ⟨dr1, src⟩
    rcases damageDealtMatch c with _ | ⟨d1, d2, tg⟩ <;>
      rcases weaponMatch c with _ | w <;>
        rcases hitQualityMatch c with _ | q <;> rfl
  · intro hm hr hdd
    obtain ⟨dv, hdv⟩ := Option.ne_none_iff_exists'.1 hdd
    simp only [parseCombatLine, hl]
    rw [if_neg hcombat, hm, hr, hdv]
    rcases dv with ⟨d1, d2, tg⟩
    rcases weaponMatch c with _ | w <;>
      rcases hitQualityMatch c with _ | q <;> rfl

/-- C5 witness: a combat line whose content matches both the damage-dealt
and the miss pattern is classified as a miss. -/
theorem classification_precedence_witness :
    (parseCombatLine "[ 2024.01.01 00:00:00 ] (combat) <color=a><b>1</b>x<color=b><b>2</b>y to <b><color=c>Tgt</color></b> misses you completely").map
        (fun e => e.type) = some EventType.miss :=
  (classification_precedence
      "[ 2024.01.01 00:00:00 ] (combat) <color=a><b>1</b>x<color=b><b>2</b>y to <b><color=c>Tgt</color></b> misses you completely"
      ("<color=a><b>1</b>x<color=b><b>2</b>y to <b><color=c>Tgt</color></b> misses you completely" : String).data
      (by decide)).1 (by decide)

/-- C9: a later classification rule overwrites only its own fields, so a
reclassified event keeps stale fields from the earlier match: a line
matching damage-dealt and miss yields a miss event still carrying the
damage-dealt damage (with the miss target overwriting the damage-dealt
target), and a line matching damage-dealt and damage-received yields a
damage_received event still carrying the damage-dealt target alongside the
source. -/
theorem stale_fields (line : String) (c : List Char)
    (hl : logLineMatch line.data = some ("combat".data, c)) :
    (∀ d1 d2 tg mt, damageDealtMatch c = some (d1, d2, tg) →
      damageReceivedMatch c = none → missMatch c = some mt →
      (parseCombatLine line).map (fun e => (e.type, e.damage, e.target)) =
        some (EventType.miss, some (digitsToNat d1),
          some (match mt with | some t => stripTags (String.mk t) | none => "you"))) ∧
    (∀ d1 d2 tg dr src, damageDealtMatch c = some (d1, d2, tg) →
      damageReceivedMatch c = some (dr, src) → missMatch c = none →
      (parseCombatLine line).map (fun e => (e.type, e.damage, e.target, e.source)) =
        some (EventType.damage_received, some (digitsToNat dr),
          some (stripTags (String.mk tg)), some (stripTags (String.mk src)))) := by
  have hcombat : ¬("combat".data ≠ "combat".data) := fun hq => hq rfl
  constructor
  · intro d1 d2 tg mt hdd hdr hmt
    simp only [parseCombatLine, hl]
    rw [if_neg hcombat, hdd, hdr, hmt]
    rcases weaponMatch c with _ | w <;>
      rcases hitQualityMatch c with _ | q <;> rfl
  · intro d1 d2 tg dr src hdd hdr hmt
    simp only [parseCombatLine, hl]
    rw [if_neg hcombat, hdd, hdr, hmt]
    rcases weaponMatch c with _ | w <;>
      rcases hitQualityMatch c with _ | q <;> rfl

/-- C9 witness: on the dual damage-dealt and miss line, the final miss event
still carries damage 1 from the damage-dealt match, and its target is the
miss rule's "you". -/
theorem stale_fields_witness :
    (parseCombatLine "[ 2024.01.01 00:00:00 ] (combat) <color=a><b>1</b>x<color=b><b>2</b>y to <b><color=c>Tgt</color></b> misses you completely").map
        (fun e => (e.type, e.damage, e.target)) =
      some (EventType.miss, some 1, some "you") :=
  (stale_fields
      "[ 2024.01.01 00:00:00 ] (combat) <color=a><b>1</b>x<color=b><b>2</b>y to <b><color=c>Tgt</color></b> misses you completely"
      ("<color=a><b>1</b>x<color=b><b>2</b>y to <b><color=c>Tgt</color></b> misses you completely" : String).data
      (by decide)).1 "1".data "2".data "Tgt".data none
    (by decide) (by decide) (by decide)

theorem foldl_push_filter (lines : List String) (acc : List CombatEvent) :
    lines.foldl
      (fun acc line =>
        match parseCombatLine line with
        | some e => if e.type ≠ EventType.unknown then acc ++ [e] else acc
        | none => acc) acc =
      acc ++ lines.filterMap
        (fun l => (parseCombatLine l).bind
          (fun e => if e.type ≠ EventType.unknown then some e else none)) := by
  induction lines generalizing acc with
  | nil => simp
  | cons l t ih =>
    simp only [List.foldl_cons, List.filterMap_cons]
    cases hp : parseCombatLine l with
    | none => rw [ih]; simp
    | some e =>
      rw [ih]
      by_cases hpe : e.type ≠ EventType.unknown
      · simp [hpe]
      · simp [not_not.mp hpe]

/-- C8: `parseLogContent` splits on line-feed, parses lines independently in
order, and keeps exactly the events whose type is damage_dealt,
damage_received or miss; a line that fails the line-shape pattern, or whose
channel capture is not exactly "combat", contributes nothing
(`parseCombatLine` returns none for it). -/
theorem logContent_pipeline (content : String) :
    parseLogContent content =
      (content.splitOn "\n").filterMap
        (fun l => (parseCombatLine l).bind
          (fun e => if e.type ≠ EventType.unknown then some e else none)) ∧
    (∀ e ∈ parseLogContent content,
      e.type = EventType.damage_dealt ∨ e.type = EventType.damage_received ∨
        e.type = EventType.miss) ∧
    (∀ line : String, logLineMatch line.data = none → parseCombatLine line = none) ∧
    (∀ line : String, ∀ ty c, logLineMatch line.data = some (ty, c) →
      ty ≠ "combat".data → parseCombatLine line = none) := by
  have hmain : parseLogContent content =
      (content.splitOn "\n").filterMap
        (fun l => (parseCombatLine l).bind
          (fun e => if e.type ≠ EventType.unknown then some e else none)) := by
    unfold parseLogContent
    exact (foldl_push_filter (content.splitOn "\n") []).trans (List.nil_append _)
  refine ⟨hmain, ?_, ?_, ?_⟩
  · intro e he
    rw [hmain] at he
    obtain ⟨l, hm, hgl⟩ := List.mem_filterMap.1 he
    cases hp : parseCombatLine l with
    | none =>
      rw [hp] at hgl
      exact absurd hgl (by simp)
    | some e1 =>
      rw [hp] at hgl
      have hgl2 : (if e1.type ≠ EventType.unknown then some e1 else none) = some e := hgl
      by_cases ht : e1.type ≠ EventType.unknown
      · rw [if_pos ht] at hgl2
        have he1 : e1 = e := Option.some.inj hgl2
        subst he1
        cases hq : e1.type with
        | unknown => exact absurd hq ht
        | damage_dealt => exact Or.inl rfl
        | damage_received => exact Or.inr (Or.inl rfl)
        | miss => exact Or.inr (Or.inr rfl)
      · rw [if_neg ht] at hgl2
        exact absurd hgl2 (by simp)
  · intro line hln
    unfold parseCombatLine
    rw [hln]
  · intro line ty c hlm hty
    unfold parseCombatLine
    rw [hlm]
    exact if_pos hty

/-- C8 witness: a line with no bracketed prefix fails the line-shape pattern
and contributes no event. -/
theorem logContent_pipeline_witness :
    parseCombatLine "no bracket here (combat) hello" = none :=
  (logContent_pipeline "").2.2.1 "no bracket here (combat) hello" (by decide)

/-! ## Claims about calculateStats -/

theorem updateTimespan_proj (s : CombatStats) (e : CombatEvent) :
    (updateTimespan s e).shotsHit = s.shotsHit ∧
    (updateTimespan s e).shotsMissed = s.shotsMissed ∧
    (updateTimespan s e).dps = s.dps := by
  obtain ⟨a1, a2, a3, a4, a5, a6, a7, a8, a9, a10, a11⟩ := s
  unfold updateTimespan
  rcases e.timestamp with _ | ts
  · exact ⟨rfl, rfl, rfl⟩
  · refine ⟨?_, ?_, ?_⟩ <;> (repeat' (first | split | simp only [])) <;> rfl

theorem statsStep_proj (s : CombatStats) (e : CombatEvent) :
    (statsStep s e).shotsHit =
      s.shotsHit + (if e.type = EventType.damage_dealt then 1 else 0) ∧
    (statsStep s e).shotsMissed =
      s.shotsMissed + (if e.type = EventType.miss then 1 else 0) ∧
    (statsStep s e).dps = s.dps := by
  obtain ⟨h1, h2, h3⟩ := updateTimespan_proj s e
  unfold statsStep
  cases he : e.type with
  | unknown => refine ⟨?_, ?_, ?_⟩ <;> simp [h1, h2, h3]
  | damage_dealt =>
    refine ⟨?_, ?_, ?_⟩ <;> (repeat' (first | split | simp only [])) <;>
      simp_all
  | damage_received => refine ⟨?_, ?_, ?_⟩ <;> simp [h1, h2, h3]
  | miss =>
    refine ⟨?_, ?_, ?_⟩ <;> (repeat' (first | split | simp only [])) <;>
      simp_all

theorem foldl_stats_proj (events : List CombatEvent) (s : CombatStats) :
    (events.foldl statsStep s).shotsHit =
      s.shotsHit + events.countP (fun e => e.type = EventType.damage_dealt) ∧
    (events.foldl statsStep s).shotsMissed =
      s.shotsMissed + events.countP (fun e => e.type = EventType.miss) ∧
    (events.foldl statsStep s).dps = s.dps := by
  induction events generalizing s with
  | nil => simp
  | cons e t ih =>
    obtain ⟨h1, h2, h3⟩ := statsStep_proj s e
    obtain ⟨g1, g2, g3⟩ := ih (statsStep s e)
    simp only [List.foldl_cons, List.countP_cons]
    refine ⟨?_, ?_, ?_⟩
    · rw [g1, h1]
      by_cases hdd : e.type = EventType.damage_dealt
      · simp [hdd]
        omega
      · simp [hdd]
    · rw [g2, h2]
      by_cases hms : e.type = EventType.miss
      · simp [hms]
        omega
      · simp [hms]
    · rw [g3, h3]

theorem calculateStats_proj (events : List CombatEvent) :
    (calculateStats events).shotsHit = (events.foldl statsStep statsInit).shotsHit ∧
    (calculateStats events).shotsMissed = (events.foldl statsStep statsInit).shotsMissed ∧
    (calculateStats events).timespanStart = (events.foldl statsStep statsInit).timespanStart ∧
    (calculateStats events).timespanEnd = (events.foldl statsStep statsInit).timespanEnd ∧
    (calculateStats events).totalDamageDealt =
      (events.foldl statsStep statsInit).totalDamageDealt ∧
    (calculateStats events).hitRate =
      (if 0 < (events.foldl statsStep statsInit).shotsHit +
          (events.foldl statsStep statsInit).shotsMissed
        then ((events.foldl statsStep statsInit).shotsHit : ℚ) /
          (((events.foldl statsStep statsInit).shotsHit +
            (events.foldl statsStep statsInit).shotsMissed : ℕ) : ℚ) * 100
        else 0) := by
  simp only [calculateStats]
  rcases (events.foldl statsStep statsInit).timespanStart with _ | a <;>
    rcases (events.foldl statsStep statsInit).timespanEnd with _ | b <;>
      exact ⟨rfl, rfl, rfl, rfl, rfl, rfl⟩

/-- C6: `shotsHit + shotsMissed` equals the number of damage_dealt events
plus the number of miss events (damage_received contributes to neither), and
`hitRate` is `shotsHit / (shotsHit + shotsMissed) * 100`, or 0 when the
denominator is 0. -/
theorem stats_hit_counts (events : List CombatEvent) :
    (calculateStats events).shotsHit + (calculateStats events).shotsMissed =
      events.countP (fun e => e.type = EventType.damage_dealt) +
        events.countP (fun e => e.type = EventType.miss) ∧
    (calculateStats events).hitRate =
      (if (calculateStats events).shotsHit + (calculateStats events).shotsMissed = 0 then 0
       else ((calculateStats events).shotsHit : ℚ) /
         (((calculateStats events).shotsHit + (calculateStats events).shotsMissed : ℕ) : ℚ)
           * 100) := by
  obtain ⟨f1, f2, f3⟩ := foldl_stats_proj events statsInit
  obtain ⟨p1, p2, p3, p4, p5, p6⟩ := calculateStats_proj events
  constructor
  · rw [p1, p2, f1, f2]
    simp [statsInit]
  · rw [p6, p1, p2]
    by_cases hz : (events.foldl statsStep statsInit).shotsHit +
        (events.foldl statsStep statsInit).shotsMissed = 0
    · rw [if_neg (by omega), if_pos hz]
    · rw [if_pos (by omega), if_neg hz]

/-- C7 counterexample: a single timestamped damage event makes both timespan
endpoints equal (span 0, not strictly positive), yet the dps field is
defined — the code assigns `dps = 0` whenever both endpoints are set,
contradicting "dps is omitted unless the span is strictly positive". -/
theorem dps_zero_span_example :
    (calculateStats
      [⟨some 0, "x", EventType.damage_dealt, some 50, none, none, none, none⟩]).timespanStart =
        some 0 ∧
    (calculateStats
      [⟨some 0, "x", EventType.damage_dealt, some 50, none, none, none, none⟩]).timespanEnd =
        some 0 ∧
    (calculateStats
      [⟨some 0, "x", EventType.damage_dealt, some 50, none, none, none, none⟩]).dps =
        some (some 0) := by
  refine ⟨?_, ?_, ?_⟩ <;>
    norm_num [calculateStats, statsStep, updateTimespan, statsInit, jsAdd]

/-- C7 amended: the dps field is defined if and only if both timespan
endpoints are set (not only when the span is strictly positive); when both
endpoints are set, dps equals totalDamageDealt divided by the span in
seconds if that span is strictly positive and 0 otherwise; for the empty
event list dps is undefined and both endpoints are null. -/
theorem dps_contract (events : List CombatEvent) :
    ((calculateStats events).dps ≠ none ↔
      ((calculateStats events).timespanStart.isSome ∧
        (calculateStats events).timespanEnd.isSome)) ∧
    (∀ st en, (calculateStats events).timespanStart = some st →
      (calculateStats events).timespanEnd = some en →
      (calculateStats events).dps =
        some (if 0 < ((en - st : Int) : ℚ) / 1000
          then (calculateStats events).totalDamageDealt.map
            (fun t => t / (((en - st : Int) : ℚ) / 1000))
          else some 0)) ∧
    (calculateStats []).dps = none ∧
    (calculateStats []).timespanStart = none ∧
    (calculateStats []).timespanEnd = none := by
  obtain ⟨f1, f2, f3⟩ := foldl_stats_proj events statsInit
  have hdf : (events.foldl statsStep statsInit).dps = none := f3
  refine ⟨?_, ?_, rfl, rfl, rfl⟩
  · simp only [calculateStats]
    rcases (events.foldl statsStep statsInit).timespanStart with _ | a <;>
      rcases (events.foldl statsStep statsInit).timespanEnd with _ | b <;>
        simp [hdf]
  · intro st en hst hen
    obtain ⟨p1, p2, p3, p4, p5, p6⟩ := calculateStats_proj events
    rw [p3] at hst
    rw [p4] at hen
    rw [p5]
    simp only [calculateStats]
    rw [hst, hen]

/-- C7 witness: two timestamped events one second apart define dps = 50. -/
theorem dps_contract_witness :
    (calculateStats
      [⟨some 0, "x", EventType.damage_dealt, some 50, none, none, none, none⟩,
       ⟨some 1000, "y", EventType.miss, none, none, none, none, none⟩]).dps =
      some (some 50) := by
  have hst : (calculateStats
      [⟨some 0, "x", EventType.damage_dealt, some 50, none, none, none, none⟩,
       ⟨some 1000, "y", EventType.miss, none, none, none, none, none⟩]).timespanStart =
      some 0 := by
    norm_num [calculateStats, statsStep, updateTimespan, statsInit, jsAdd]
  have hen : (calculateStats
      [⟨some 0, "x", EventType.damage_dealt, some 50, none, none, none, none⟩,
       ⟨some 1000, "y", EventType.miss, none, none, none, none, none⟩]).timespanEnd =
      some 1000 := by
    norm_num [calculateStats, statsStep, updateTimespan, statsInit, jsAdd]
  have htd : (calculateStats
      [⟨some 0, "x", EventType.damage_dealt, some 50, none, none, none, none⟩,
       ⟨some 1000, "y", EventType.miss, none, none, none, none, none⟩]).totalDamageDealt =
      some 50 := by
    norm_num [calculateStats, statsStep, updateTimespan, statsInit, jsAdd]
  have h := (dps_contract
      [⟨some 0, "x", EventType.damage_dealt, some 50, none, none, none, none⟩,
       ⟨some 1000, "y", EventType.miss, none, none, none, none, none⟩]).2.1 0 1000 hst hen
  rw [h, htd]
  norm_num

end Rra
